import Mathlib

/-
Verification of the Legal-AI-Analyzer clause pipeline (backened/AI_analyzer.py
and backened/risk_analyzer.py), shallowly embedded in Lean 4.  Text is
modelled as a list of characters; Python string operations (lower, strip,
substring membership, re.search / re.split on the concrete patterns the code
uses) are embedded as executable functions on character lists.  Python floats
in the aggregation layer are modelled as exact rationals.
-/

set_option maxRecDepth 100000

namespace LegalAI

/-- Text is a list of characters (the sources only handle ASCII inputs,
so Python's unicode-aware lower and character classes coincide with the
ASCII versions used here). -/
abbrev Str := List Char

/-- Characters of a Lean string literal. -/
def str (s : String) : Str := s.data

/-- ASCII whitespace: what Python's default str.strip / str.split and the
regex class backslash-s accept. -/
def isWs (c : Char) : Bool :=
  c = ' ' || c = '\t' || c = '\n' || c = '\x0d' || c = '\x0b' || c = '\x0c'

/-- ASCII decimal digit (regex class backslash-d). -/
def isDigit (c : Char) : Bool := '0' ≤ c && c ≤ '9'

/-- ASCII upper-case letter (regex class A-Z). -/
def isUpper (c : Char) : Bool := 'A' ≤ c && c ≤ 'Z'

/-- ASCII lower-case letter. -/
def isLowerC (c : Char) : Bool := 'a' ≤ c && c ≤ 'z'

/-- Regex word character backslash-w: letters, digits, underscore. -/
def isWord (c : Char) : Bool := isDigit c || isUpper c || isLowerC c || c = '_'

/-- Python str.lower, per character. -/
def lowerL (s : Str) : Str := s.map Char.toLower

/-- needle is an initial segment of hay. -/
def begins : Str → Str → Bool
  | [], _ => true
  | _ :: _, [] => false
  | c :: s, d :: t => c = d && begins s t

/-- Python's "needle in hay" substring membership test. -/
def inStr (needle : Str) : Str → Bool
  | [] => begins needle []
  | d :: t => begins needle (d :: t) || inStr needle t

/-- Python str.strip() with no argument: trim whitespace at both ends. -/
def strip (s : Str) : Str := ((s.dropWhile isWs).reverse.dropWhile isWs).reverse

/-- Regular expressions as used by the source's re.search / re.split calls:
character literal, character class, concatenation, alternation, Kleene star,
plus an explicit failing regex so that derivatives collapse quickly. -/
inductive Rx : Type where
  | fail : Rx
  | eps : Rx
  | chr : Char → Rx
  | cls : (Char → Bool) → Rx
  | seq : Rx → Rx → Rx
  | alt : Rx → Rx → Rx
  | star : Rx → Rx

/-- Smart concatenation: collapses the failing regex and drops unit eps. -/
def Rx.seqS : Rx → Rx → Rx
  | .fail, _ => .fail
  | _, .fail => .fail
  | .eps, b => b
  | a, .eps => a
  | a, b => .seq a b

/-- Smart alternation: drops failing branches. -/
def Rx.altS : Rx → Rx → Rx
  | .fail, b => b
  | a, .fail => a
  | a, b => .alt a b

/-- The regex accepts the empty string. -/
def Rx.nullable : Rx → Bool
  | .fail => false
  | .eps => true
  | .chr _ => false
  | .cls _ => false
  | .seq a b => a.nullable && b.nullable
  | .alt a b => a.nullable || b.nullable
  | .star _ => true

/-- Brzozowski derivative by one character. -/
def Rx.deriv : Rx → Char → Rx
  | .fail, _ => .fail
  | .eps, _ => .fail
  | .chr d, c => if c = d then .eps else .fail
  | .cls p, c => if p c then .eps else .fail
  | .seq a b, c =>
    if a.nullable then .altS (.seqS (a.deriv c) b) (b.deriv c)
    else .seqS (a.deriv c) b
  | .alt a b, c => .altS (a.deriv c) (b.deriv c)
  | .star a, c => .seqS (a.deriv c) (.star a)

/-- Some initial segment of s matches r (re.search anchored at one start). -/
def Rx.matchPre : Rx → Str → Bool
  | .fail, _ => false
  | r, [] => r.nullable
  | r, c :: s => r.nullable || (r.deriv c).matchPre s

/-- re.search: some substring of s matches r. -/
def Rx.found : Rx → Str → Bool
  | r, [] => r.nullable
  | r, c :: s => r.matchPre (c :: s) || r.found s

/-- A literal string as a regex. -/
def Rx.lit : Str → Rx
  | [] => .eps
  | c :: s => .seqS (.chr c) (Rx.lit s)

/-- Regex r+ (one or more). -/
def Rx.plus (r : Rx) : Rx := .seq r (.star r)

/-- Regex r? (zero or one). -/
def Rx.opt (r : Rx) : Rx := .alt r .eps

/-- Regex backslash-w* . -/
def wstar : Rx := .star (.cls isWord)

/-- Regex backslash-s+ . -/
def wsPlus : Rx := Rx.plus (.cls isWs)

/-- A literal word followed by backslash-w* , the commonest pattern shape of
AIAnalyzer.clause_patterns. -/
def rxWord (s : String) : Rx := .seqS (Rx.lit (str s)) wstar

/-- Regex "." : any character except a newline. -/
def anyNotNl : Rx := .cls (fun c => c != '\n')

/-- AIAnalyzer.clause_patterns, in declared (insertion) order, each regex
transcribed from its Python source string. -/
def clausePatterns : List (String × List Rx) :=
  [ ("termination",
      [ rxWord "terminat",
        .seqS (Rx.lit (str "end")) (.seqS wsPlus (.seqS
          (Rx.opt (.seqS (Rx.lit (str "of")) wsPlus))
          (.seqS (Rx.opt (.seqS (Rx.lit (str "this")) wsPlus))
            (.alt (Rx.lit (str "agreement")) (Rx.lit (str "contract")))))),
        rxWord "expire",
        Rx.lit (str "dissolution"),
        rxWord "cancell" ]),
    ("liability",
      [ rxWord "liabilit",
        rxWord "responsible",
        .seqS (Rx.lit (str "damage")) (Rx.opt (.chr 's')),
        rxWord "loss",
        rxWord "indemnif",
        .seqS (Rx.lit (str "hold")) (.seqS wsPlus (Rx.lit (str "harmless"))) ]),
    ("payment",
      [ rxWord "payment", rxWord "pay", rxWord "fee", rxWord "cost",
        rxWord "price", rxWord "invoice", Rx.lit (str "billing"),
        rxWord "charge" ]),
    ("confidentiality",
      [ rxWord "confidential",
        .seqS (Rx.lit (str "non")) (.seqS (Rx.opt anyNotNl) (Rx.lit (str "disclosure"))),
        Rx.lit (str "proprietary"),
        .seqS (Rx.lit (str "trade")) (.seqS wsPlus (rxWord "secret")),
        rxWord "private" ]),
    ("intellectual_property",
      [ .seqS (Rx.lit (str "intellectual")) (.seqS wsPlus (Rx.lit (str "property"))),
        rxWord "copyright",
        rxWord "trademark",
        rxWord "patent",
        Rx.lit (str "ownership") ]),
    ("dispute_resolution",
      [ rxWord "dispute",
        Rx.lit (str "arbitration"),
        Rx.lit (str "mediation"),
        rxWord "court",
        Rx.lit (str "jurisdiction"),
        .seqS (Rx.lit (str "governing")) (.seqS wsPlus (Rx.lit (str "law"))) ]) ]

/-- First category, in declared order, with at least one matching pattern
(the loop of AIAnalyzer._identify_clause_type). -/
def findClauseType : List (String × List Rx) → Str → Option String
  | [], _ => none
  | (name, ps) :: rest, tl =>
    if ps.any (fun r => r.found tl) then some name else findClauseType rest tl

/-- AIAnalyzer._identify_clause_type. -/
def identifyClauseType (text : Str) : String :=
  let tl := lowerL text
  match findClauseType clausePatterns tl with
  | some t => t
  | none =>
    if [str "shall", str "will", str "must", str "required"].any
        (fun w => inStr w tl) then "obligation"
    else if [str "may", str "can", str "permitted", str "allowed"].any
        (fun w => inStr w tl) then "right"
    else "general"

/-- The raw Python source strings of AIAnalyzer.clause_patterns (used verbatim
by _generate_summary, which tests their characters against the text). -/
def clausePatternStrings : List (String × List String) :=
  [ ("termination",
      ["terminat\\w*", "end\\s+(?:of\\s+)?(?:this\\s+)?(?:agreement|contract)",
       "expire\\w*", "dissolution", "cancell\\w*"]),
    ("liability",
      ["liabilit\\w*", "responsible\\w*", "damages?", "loss\\w*",
       "indemnif\\w*", "hold\\s+harmless"]),
    ("payment",
      ["payment\\w*", "pay\\w*", "fee\\w*", "cost\\w*", "price\\w*",
       "invoice\\w*", "billing", "charge\\w*"]),
    ("confidentiality",
      ["confidential\\w*", "non.?disclosure", "proprietary",
       "trade\\s+secret\\w*", "private\\w*"]),
    ("intellectual_property",
      ["intellectual\\s+property", "copyright\\w*", "trademark\\w*",
       "patent\\w*", "ownership"]),
    ("dispute_resolution",
      ["dispute\\w*", "arbitration", "mediation", "court\\w*",
       "jurisdiction", "governing\\s+law"]) ]

/-- The fixed per-category explanation templates of AIAnalyzer._simplify_clause. -/
def simplificationTemplates : List (String × String) :=
  [ ("termination", "This explains how either party can end the contract."),
    ("liability", "This describes who is responsible if something goes wrong."),
    ("payment", "This covers how much you pay and when payments are due."),
    ("confidentiality", "This requires keeping shared information private."),
    ("intellectual_property", "This defines who owns ideas and creative work."),
    ("dispute_resolution", "This explains how to resolve disagreements."),
    ("obligation", "This describes what you must do under the contract."),
    ("right", "This explains what you're allowed to do.") ]

/-- The regex (backslash-d+)backslash-s+days?backslash-s+notice anchored at the
start of s; returns group 1 (the digit run) on success. -/
def matchDaysAt (s : Str) : Option Str :=
  let (d, r1) := s.span isDigit
  if d = [] then none else
  let (w1, r2) := r1.span isWs
  if w1 = [] then none else
  if begins (str "day") r2 then
    let r3 := r2.drop 3
    let r4 := if begins (str "s") r3 then r3.drop 1 else r3
    let (w2, r5) := r4.span isWs
    if w2 = [] then none
    else if begins (str "notice") r5 then some d else none
  else none

/-- re.search for the days-of-notice pattern: leftmost match's digit group. -/
def findDaysNotice : Str → Option Str
  | [] => none
  | c :: s =>
    match matchDaysAt (c :: s) with
    | some d => some d
    | none => findDaysNotice s

/-- The regex dollar-sign[backslash-d,]+ anchored at the start of s; returns
the whole match on success. -/
def matchDollarAt : Str → Option Str
  | '$' :: s =>
    let (run, _) := s.span (fun c => isDigit c || c = ',')
    if run = [] then none else some ('$' :: run)
  | _ => none

/-- re.search for a dollar amount: leftmost match. -/
def findDollar : Str → Option Str
  | [] => none
  | c :: s =>
    match matchDollarAt (c :: s) with
    | some m => some m
    | none => findDollar s

/-- AIAnalyzer._simplify_clause: template plus detail appends.  Note the
source's elif: the payment-branch appends are skipped whenever the text
contains "termination". -/
def simplifyClause (clauseText : Str) (clauseType : String) : String :=
  let base :=
    (simplificationTemplates.lookup clauseType).getD "This is a standard contract provision."
  let tl := lowerL clauseText
  if inStr (str "termination") tl then
    let base1 :=
      if inStr (str "notice") tl then
        match findDaysNotice tl with
        | some d => base ++ " You need to give " ++ String.mk d ++ " days notice."
        | none => base
      else base
    if inStr (str "cause") tl && inStr (str "without") tl then
      base1 ++ " Either party can terminate without giving a specific reason."
    else base1
  else if inStr (str "payment") tl then
    let base1 :=
      match findDollar clauseText with
      | some m => base ++ " The amount involved is " ++ String.mk m ++ "."
      | none => base
    if inStr (str "late") tl && inStr (str "fee") tl then
      base1 ++ " There are penalties for late payment."
    else base1
  else base

/-- AIAnalyzer.high_risk_keywords. -/
def aiHighRiskKeywords : List Str :=
  [str "unlimited liability", str "personal guarantee", str "no refund",
   str "immediate termination", str "sole discretion", str "without cause",
   str "liquidated damages", str "penalty", str "forfeiture"]

/-- AIAnalyzer.medium_risk_keywords. -/
def aiMediumRiskKeywords : List Str :=
  [str "limited liability", str "reasonable notice", str "material breach",
   str "cure period", str "mutual agreement", str "standard terms"]

/-- The (score, level, factors) triple returned by a clause risk assessment. -/
structure RiskOut where
  score : Int
  level : String
  factors : List String
deriving DecidableEq, Repr

/-- AIAnalyzer._assess_clause_risk: base 5, +2 per high-risk keyword present,
+1 per medium-risk keyword present, category-specific adjustments, clamp to
[1,10], then the analyzer's own 3/7 level thresholds. -/
def assessClauseRisk (clauseText : Str) (clauseType : String) : RiskOut :=
  let tl := lowerL clauseText
  let highHits := aiHighRiskKeywords.filter (fun t => inStr t tl)
  let medHits := aiMediumRiskKeywords.filter (fun t => inStr t tl)
  let s1 : Int := 5 + 2 * highHits.length + medHits.length
  let f1 :=
    highHits.map (fun t => "Contains high-risk term: '" ++ String.mk t ++ "'") ++
    medHits.map (fun t => "Contains medium-risk term: '" ++ String.mk t ++ "'")
  let s2f2 : Int × List String :=
    if clauseType = "termination" then
      if inStr (str "immediate") tl || inStr (str "without notice") tl then
        (s1 + 2, f1 ++ ["Allows immediate termination"])
      else (s1, f1)
    else if clauseType = "liability" then
      if inStr (str "unlimited") tl then (s1 + 3, f1 ++ ["Unlimited liability exposure"])
      else if inStr (str "limited") tl then (s1 - 1, f1 ++ ["Liability is limited"])
      else (s1, f1)
    else if clauseType = "payment" then
      if inStr (str "penalty") tl || inStr (str "liquidated damages") tl then
        (s1 + 2, f1 ++ ["Contains payment penalties"])
      else (s1, f1)
    else (s1, f1)
  let score := max 1 (min 10 s2f2.1)
  let level := if score ≤ 3 then "low" else if score ≤ 7 then "medium" else "high"
  let factors := if s2f2.2 = [] then ["Standard clause with typical terms"] else s2f2.2
  ⟨score, level, factors⟩

/-- Python str.title() (ASCII): a letter after a non-letter is upcased, a
letter after a letter is downcased. -/
def titleGo : Bool → Str → Str
  | _, [] => []
  | prevAlpha, c :: s =>
    let isAl := isUpper c || isLowerC c
    let c' := if isAl then (if prevAlpha then Char.toLower c else Char.toUpper c) else c
    c' :: titleGo isAl s

/-- Python str.title() on a character list. -/
def pyTitle (s : Str) : Str := titleGo false s

/-- One analyzed clause record, as assembled by AIAnalyzer._analyze_clause. -/
structure ClauseRec where
  id : String
  title : String
  content : Str
  simplified : String
  risk_level : String
  risk_score : Int
  risk_factors : List String
  clause_type : String
deriving DecidableEq, Repr

/-- AIAnalyzer._analyze_clause: classify, simplify, assess, and truncate the
stored content to 500 characters plus an ellipsis for display. -/
def analyzeClause (clauseText : Str) (clauseIndex : Nat) : ClauseRec :=
  let ct := identifyClauseType clauseText
  let simplified := simplifyClause clauseText ct
  let risk := assessClauseRisk clauseText ct
  { id := "clause_" ++ toString clauseIndex,
    title := String.mk (pyTitle ((str ct).map (fun c => if c = '_' then ' ' else c))),
    content := if 500 < clauseText.length then clauseText.take 500 ++ str "..." else clauseText,
    simplified := simplified,
    risk_level := risk.level,
    risk_score := risk.score,
    risk_factors := risk.factors,
    clause_type := ct }

/-- Matcher for the separator regex newline backslash-s* backslash-d+ dot
backslash-s+ : length of the match anchored at the head, if any. -/
def matchSep1 : Str → Option Nat
  | '\n' :: s =>
    let (w1, r1) := s.span isWs
    let (d, r2) := r1.span isDigit
    if d = [] then none else
    match r2 with
    | '.' :: r3 =>
      let (w2, _) := r3.span isWs
      if w2 = [] then none else some (1 + w1.length + d.length + 1 + w2.length)
    | _ => none
  | _ => none

/-- Matcher for newline backslash-s* open-paren [a-z] close-paren backslash-s+ . -/
def matchSep2 : Str → Option Nat
  | '\n' :: s =>
    let (w1, r1) := s.span isWs
    match r1 with
    | '(' :: c :: ')' :: r2 =>
      if isLowerC c then
        let (w2, _) := r2.span isWs
        if w2 = [] then none else some (1 + w1.length + 3 + w2.length)
      else none
    | _ => none
  | _ => none

/-- Matcher for newline backslash-s* [A-Z backslash-s]{3,} colon backslash-s*
newline: the class run is forced maximal (the colon is outside the class), and
the trailing backslash-s* newline backtracks to the last newline of the
whitespace run after the colon. -/
def matchSep3 : Str → Option Nat
  | '\n' :: s =>
    let (run, r1) := s.span (fun c => isUpper c || isWs c)
    if run.length < 3 then none else
    match r1 with
    | ':' :: r2 =>
      let (w2, _) := r2.span isWs
      if w2.any (fun c => c = '\n') then
        some (1 + run.length + 1 + (w2.length - w2.reverse.findIdx (fun c => c = '\n')))
      else none
    | _ => none
  | _ => none

/-- Matcher for newline backslash-s* WORD backslash-s+ backslash-d+ with the
given literal word (SECTION and ARTICLE headers). -/
def matchSepWord (word : Str) : Str → Option Nat
  | '\n' :: s =>
    let (w1, r1) := s.span isWs
    if begins word r1 then
      let r2 := r1.drop word.length
      let (w2, r3) := r2.span isWs
      if w2 = [] then none else
      let (d, _) := r3.span isDigit
      if d = [] then none else some (1 + w1.length + word.length + w2.length + d.length)
    else none
  | _ => none

/-- re.split driver: scan left to right, cut at each leftmost match of the
separator matcher, keep the fragments (empty ones included).  The fuel
argument, initially the text length, only keeps the recursion structural
(kernel-reducible); every step consumes at least one character, so the fuel
never runs out. -/
def splitByFuel (m : Str → Option Nat) : Nat → Str → Str → List Str
  | 0, acc, _ => [acc.reverse]
  | _ + 1, acc, [] => [acc.reverse]
  | fuel + 1, acc, c :: rest =>
    match m (c :: rest) with
    | some n =>
      if 0 < n then acc.reverse :: splitByFuel m fuel [] (rest.drop (n - 1))
      else splitByFuel m fuel (c :: acc) rest
    | none => splitByFuel m fuel (c :: acc) rest

/-- re.split of a whole string by a separator matcher. -/
def splitByM (m : Str → Option Nat) (s : Str) : List Str := splitByFuel m s.length [] s

/-- One pass of AIAnalyzer._split_into_clauses: re.split every section at the
pattern, strip each part and keep the non-empty ones. -/
def splitPass (m : Str → Option Nat) (sections : List Str) : List Str :=
  sections.flatMap (fun sec => ((splitByM m sec).map strip).filter (fun p => p ≠ []))

/-- AIAnalyzer._split_into_clauses, main path: the five separator passes, then
keep sections longer than 100 characters and cap the list at 20. -/
def splitIntoClauses (text : Str) : List Str :=
  let sections := [text]
  let sections := splitPass matchSep1 sections
  let sections := splitPass matchSep2 sections
  let sections := splitPass matchSep3 sections
  let sections := splitPass (matchSepWord (str "SECTION")) sections
  let sections := splitPass (matchSepWord (str "ARTICLE")) sections
  (sections.filter (fun s => 100 < s.length)).take 20

/-- Python str.split with a literal separator (used by the fallback path). -/
def splitOnSep (sep : Str) (s : Str) : List Str :=
  splitByM (fun t => if begins sep t then some sep.length else none) s

/-- AIAnalyzer._split_into_clauses, except-branch fallback: split on blank
lines, strip, keep parts longer than 100 characters, cap at 10. -/
def splitFallback (text : Str) : List Str :=
  (((splitOnSep (str "\n\n") text).map strip).filter (fun p => 100 < p.length)).take 10

/-- AIAnalyzer._detect_document_type. -/
def detectDocumentType (text : Str) : String :=
  let tl := lowerL text
  if inStr (str "service agreement") tl || inStr (str "services agreement") tl then
    "Service Agreement"
  else if inStr (str "employment") tl && inStr (str "agreement") tl then
    "Employment Agreement"
  else if inStr (str "lease") tl || inStr (str "rental") tl then "Lease Agreement"
  else if inStr (str "non-disclosure") tl || inStr (str "nda") tl then
    "Non-Disclosure Agreement"
  else if inStr (str "license") tl && inStr (str "agreement") tl then "License Agreement"
  else if inStr (str "purchase") tl || inStr (str "sale") tl then "Purchase Agreement"
  else if inStr (str "partnership") tl then "Partnership Agreement"
  else if inStr (str "contract") tl then "Contract"
  else "Legal Document"

/-- len(text.split()): number of maximal non-whitespace runs. -/
def countWords : Bool → Str → Nat
  | _, [] => 0
  | inw, c :: s =>
    if isWs c then countWords false s
    else (if inw then 0 else 1) + countWords true s

/-- Word count of a text, as Python len(text.split()). -/
def wordCount (s : Str) : Nat := countWords false s

/-- The theme test of AIAnalyzer._generate_summary.  The source iterates the
characters of the raw pattern strings (pattern in text_lower with pattern a
single character), so a theme fires when any character of any pattern string
of the category occurs in the text. -/
def anyPatternChar (cat : String) (tl : Str) : Bool :=
  match clausePatternStrings.lookup cat with
  | some ps => ps.any (fun p => (str p).any (fun c => tl.contains c))
  | none => false

/-- AIAnalyzer._generate_summary. -/
def generateSummary (text : Str) (filename : String) : String :=
  let docType := detectDocumentType text
  let wc := wordCount text
  let clauseCount := (splitIntoClauses text).length
  let tl := lowerL text
  let themes :=
    (if anyPatternChar "termination" tl then ["contract termination"] else []) ++
    (if anyPatternChar "payment" tl then ["payment terms"] else []) ++
    (if anyPatternChar "liability" tl then ["liability provisions"] else []) ++
    (if anyPatternChar "confidentiality" tl then ["confidentiality requirements"] else [])
  let s := "This " ++ docType ++ " document (" ++ filename ++ ") contains approximately "
    ++ toString wc ++ " words. "
    ++ "The document has been analyzed and contains " ++ toString clauseCount
    ++ " major clauses or sections. "
  if themes ≠ [] then s ++ "Key areas covered include: " ++ String.intercalate ", " themes ++ "."
  else s

/-- The document analysis record returned by AIAnalyzer.analyze_document.
The wall-clock timestamp is the one impure input of the call and is passed
in explicitly. -/
structure DocumentAnalysis where
  summary : String
  clauses : List ClauseRec
  analysis_timestamp : String
  document_type : String
deriving DecidableEq, Repr

/-- AIAnalyzer.analyze_document: segment, analyze every substantial section
(strip longer than 50 characters) at its original index, summarize, stamp. -/
def analyzeDocument (text : Str) (filename : String) (timestamp : String) : DocumentAnalysis :=
  let sections := splitIntoClauses text
  let analyzed := (sections.enum.filter (fun p => 50 < (strip p.2).length)).map
    (fun p => analyzeClause p.2 p.1)
  { summary := generateSummary text filename,
    clauses := analyzed,
    analysis_timestamp := timestamp,
    document_type := detectDocumentType text }

/-- RiskAnalyzer.high_risk_terms, grouped by category as in the source. -/
def highRiskTerms : List (String × List Str) :=
  [ ("liability",
      [str "unlimited liability", str "personal liability",
       str "joint and several liability", str "full liability",
       str "complete liability", str "absolute liability"]),
    ("termination",
      [str "immediate termination", str "terminate without cause",
       str "terminate at will", str "no notice termination",
       str "summary termination", str "terminate for convenience"]),
    ("payment",
      [str "no refund", str "non-refundable", str "liquidated damages",
       str "penalty clause", str "forfeiture", str "compound interest",
       str "usurious interest"]),
    ("obligations",
      [str "personal guarantee", str "unlimited guarantee",
       str "unconditional guarantee", str "irrevocable commitment",
       str "binding obligation"]),
    ("dispute",
      [str "waive jury trial", str "binding arbitration", str "no appeal",
       str "attorney fees to prevailing party", str "forum selection"]),
    ("modification",
      [str "unilateral modification", str "sole discretion",
       str "without consent", str "may change at any time",
       str "reserves the right"]) ]

/-- RiskAnalyzer.medium_risk_terms. -/
def mediumRiskTerms : List (String × List Str) :=
  [ ("liability",
      [str "limited liability", str "liability cap",
       str "consequential damages excluded"]),
    ("termination",
      [str "terminate with cause", str "30 days notice", str "material breach"]),
    ("payment",
      [str "late fees", str "interest charges", str "partial refund"]),
    ("obligations",
      [str "best efforts", str "commercially reasonable efforts",
       str "due diligence"]) ]

/-- RiskAnalyzer.low_risk_terms (protective terms). -/
def lowRiskTerms : List (String × List Str) :=
  [ ("liability",
      [str "mutual liability limitation", str "liability excluded",
       str "no liability"]),
    ("termination",
      [str "terminate for convenience with notice", str "mutual termination",
       str "cure period"]),
    ("payment",
      [str "pro-rated refund", str "reasonable fees", str "market rate"]) ]

/-- The term lists in the scanning order of the nested loops of
_analyze_clause_risk. -/
def riskHighFlat : List Str := highRiskTerms.flatMap (fun p => p.2)

/-- Medium-risk terms in scanning order. -/
def riskMediumFlat : List Str := mediumRiskTerms.flatMap (fun p => p.2)

/-- Low-risk terms in scanning order. -/
def riskLowFlat : List Str := lowRiskTerms.flatMap (fun p => p.2)

/-- RiskAnalyzer.risk_weights. -/
def riskWeights : List (String × Int) :=
  [("high_risk_term", 3), ("medium_risk_term", 2), ("low_risk_term", -1),
   ("unclear_language", 2), ("one_sided_clause", 2), ("broad_scope", 1),
   ("time_pressure", 1)]

/-- Weight lookup (every key used by the source is present in the table). -/
def riskWeight (k : String) : Int := (riskWeights.lookup k).getD 0

/-- RiskAnalyzer.base_risk_scores. -/
def baseRiskScores : List (String × Int) :=
  [("termination", 6), ("liability", 7), ("payment", 5), ("confidentiality", 3),
   ("intellectual_property", 4), ("dispute_resolution", 5), ("obligations", 5),
   ("warranties", 4), ("indemnification", 7), ("force_majeure", 2), ("general", 4)]

/-- RiskAnalyzer._check_additional_risk_factors: ambiguous language,
one-sided phrasing, broad scope, time pressure. -/
def checkAdditionalRiskFactors (clauseText : Str) (currentScore : Int) :
    Int × List String :=
  let ambiguousTerms := [str "reasonable", str "appropriate", str "satisfactory",
    str "adequate", str "fair"]
  let ambiguousCount := ambiguousTerms.countP (fun t => inStr t clauseText)
  let af : Int × List String :=
    if 2 ≤ ambiguousCount then (riskWeight "unclear_language", ["Contains ambiguous language"])
    else (0, [])
  let oneSided := [str "sole discretion", str "absolute right", str "unilateral",
    str "without limitation", str "at our option", str "we may", str "company reserves"]
  let os : Int × List String :=
    if oneSided.any (fun t => inStr t clauseText) then
      (riskWeight "one_sided_clause", ["One-sided clause favoring other party"])
    else (0, [])
  let broadTerms := ["all", "any", "every", "entire", "complete", "total"]
  let broadCount := broadTerms.countP
    (fun t => inStr (str (" " ++ t ++ " ")) clauseText)
  let bs : Int × List String :=
    if 3 ≤ broadCount then (riskWeight "broad_scope", ["Unusually broad scope"])
    else (0, [])
  let timeTerms := [str "immediately", str "forthwith", str "without delay", str "urgently"]
  let tp : Int × List String :=
    if timeTerms.any (fun t => inStr t clauseText) then
      (riskWeight "time_pressure", ["Contains time pressure elements"])
    else (0, [])
  (currentScore + af.1 + os.1 + bs.1 + tp.1, af.2 ++ os.2 ++ bs.2 ++ tp.2)

/-- RiskAnalyzer._score_to_level: at least 7 high, at least 4 medium, else low. -/
def scoreToLevel (score : Int) : String :=
  if 7 ≤ score then "high" else if 4 ≤ score then "medium" else "low"

/-- RiskAnalyzer._analyze_clause_risk: base score per stored clause type, plus
weighted term hits on the stored (display) content, plus the additional
factors, clamped to [1,10]. -/
def analyzeClauseRisk (clause : ClauseRec) : RiskOut :=
  let tl := lowerL clause.content
  let base := (baseRiskScores.lookup clause.clause_type).getD 4
  let hh := riskHighFlat.filter (fun t => inStr t tl)
  let mh := riskMediumFlat.filter (fun t => inStr t tl)
  let lh := riskLowFlat.filter (fun t => inStr t tl)
  let s1 : Int := base + riskWeight "high_risk_term" * hh.length
    + riskWeight "medium_risk_term" * mh.length
    + riskWeight "low_risk_term" * lh.length
  let f1 := hh.map (fun t => "High-risk term: '" ++ String.mk t ++ "'")
    ++ mh.map (fun t => "Medium-risk term: '" ++ String.mk t ++ "'")
    ++ lh.map (fun t => "Protective term: '" ++ String.mk t ++ "'")
  let extra := checkAdditionalRiskFactors tl s1
  let score := max 1 (min 10 extra.1)
  ⟨score, scoreToLevel score, f1 ++ extra.2⟩

/-- RiskAnalyzer._determine_overall_risk. -/
def determineOverallRisk (avg : ℚ) (mx : Int) (highCount : Nat) : String :=
  if 7 ≤ avg ∨ 9 ≤ mx ∨ 3 ≤ highCount then "high"
  else if 5 ≤ avg ∨ 7 ≤ mx ∨ 1 ≤ highCount then "medium"
  else "low"

/-- Maximum of a list of integers (Python max; only called on non-empty
lists by the source). -/
def maxI : List Int → Int
  | [] => 0
  | x :: xs => xs.foldl max x

/-- Round half-to-even to an integer (the tie rule of Python round on the
exact values arising here; floats are modelled as exact rationals). -/
def roundHalfEven (q : ℚ) : Int :=
  let f := q.floor
  let r := q - f
  if r < 1 / 2 then f
  else if 1 / 2 < r then f + 1
  else if f % 2 = 0 then f else f + 1

/-- Python round(x, 1) as a rational. -/
def roundQ1 (q : ℚ) : ℚ := (roundHalfEven (10 * q) : ℚ) / 10

/-- Python f-string formatting with one decimal, for the non-negative
percentages of the risk summary. -/
def fmt1 (q : ℚ) : String :=
  let n := roundHalfEven (10 * q)
  toString (n / 10) ++ "." ++ toString (n % 10)

/-- Ordered-dict update used to build clause_risk_breakdown. -/
def addToBreakdown (bd : List (String × List Int)) (ct : String) (s : Int) :
    List (String × List Int) :=
  match bd with
  | [] => [(ct, [s])]
  | (k, v) :: rest =>
    if k = ct then (k, v ++ [s]) :: rest else (k, v) :: addToBreakdown rest ct s

/-- clause_risk_breakdown: per clause type, the clause scores in document
order; keys in first-seen order as for a Python dict. -/
def buildBreakdown (clauses : List ClauseRec) : List (String × List Int) :=
  clauses.foldl (fun bd c => addToBreakdown bd c.clause_type (analyzeClauseRisk c).score) []

/-- RiskAnalyzer._generate_risk_summary. -/
def generateRiskSummary (avg : ℚ) (highCount : Nat) (total : Nat)
    (bd : List (String × List Int)) : String :=
  let p1 :=
    if 7 ≤ avg then ["This document presents HIGH risk"]
    else if 5 ≤ avg then ["This document presents MEDIUM risk"]
    else ["This document presents LOW risk"]
  let p2 :=
    if 0 < highCount then
      [toString highCount ++ " out of " ++ toString total ++ " clauses (" ++
        fmt1 ((highCount : ℚ) / (total : ℚ) * 100) ++ "%) are high-risk"]
    else []
  let types := (bd.filter (fun p => p.2 ≠ [] ∧ 7 ≤ maxI p.2)).map
    (fun p => String.mk ((str p.1).map (fun c => if c = '_' then ' ' else c)))
  let p3 := if types ≠ [] then ["Highest risk areas: " ++ String.intercalate ", " types]
    else []
  String.intercalate ". " (p1 ++ p2 ++ p3) ++ "."

/-- One entry of top_risk_areas. -/
structure TopRisk where
  area : String
  avg_risk_score : ℚ
  max_risk_score : Int
  clause_count : Nat
  description : String
  sample_clause : String
deriving DecidableEq, Repr

/-- RiskAnalyzer._get_risk_area_description. -/
def riskAreaDescription (clauseType : String) : String :=
  let descriptions : List (String × String) :=
    [ ("liability", "Defines your financial responsibility if something goes wrong"),
      ("termination", "Controls how and when the contract can be ended"),
      ("payment", "Governs payment obligations and potential penalties"),
      ("indemnification", "Requires you to protect the other party from certain losses"),
      ("dispute_resolution", "Determines how conflicts will be resolved"),
      ("obligations", "Specifies what you must do under the contract"),
      ("warranties", "Contains promises about performance or quality"),
      ("intellectual_property", "Governs ownership of ideas and creative work"),
      ("confidentiality", "Controls sharing of sensitive information"),
      ("force_majeure", "Addresses what happens during extraordinary circumstances") ]
  (descriptions.lookup clauseType).getD "Important contractual provision"

/-- Stable descending insertion by avg_risk_score (Python list.sort with
reverse=True is stable). -/
def insertDesc (x : TopRisk) : List TopRisk → List TopRisk
  | [] => [x]
  | y :: ys =>
    if y.avg_risk_score < x.avg_risk_score then x :: y :: ys
    else y :: insertDesc x ys

/-- Stable descending sort by avg_risk_score. -/
def sortDesc (l : List TopRisk) : List TopRisk :=
  l.foldl (fun acc x => insertDesc x acc) []

/-- RiskAnalyzer._identify_top_risks.  The sample clause is the first clause
of the type whose stored (AI-layer) risk_score equals the breakdown maximum;
when no stored score matches, the sample is empty. -/
def identifyTopRisks (bd : List (String × List Int)) (clauses : List ClauseRec) :
    List TopRisk :=
  let areas := bd.flatMap (fun p =>
    if p.2 ≠ [] then
      let avg : ℚ := ((p.2.foldl (· + ·) 0 : Int) : ℚ) / (p.2.length : ℚ)
      let mx := maxI p.2
      if 6 ≤ avg ∨ 8 ≤ mx then
        let highest := clauses.find? (fun c => c.clause_type = p.1 ∧ c.risk_score = mx)
        [{ area := String.mk (pyTitle ((str p.1).map (fun c => if c = '_' then ' ' else c))),
           avg_risk_score := roundQ1 avg,
           max_risk_score := mx,
           clause_count := p.2.length,
           description := riskAreaDescription p.1,
           sample_clause := match highest with | some c => c.simplified | none => "" }]
      else []
    else [])
  (sortDesc areas).take 5

/-- RiskAnalyzer._generate_recommendations. -/
def generateRecommendations (overallRisk : String) (riskFactors : List String)
    (bd : List (String × List Int)) : List String :=
  let tier :=
    if overallRisk = "high" then
      ["ðŸš¨ CRITICAL: This contract has significant risks. Strongly consider legal review before signing.",
       "Negotiate key terms to reduce your exposure, especially in liability and termination clauses."]
    else if overallRisk = "medium" then
      ["âš ï¸ CAUTION: This contract has moderate risks. Review carefully and consider legal consultation.",
       "Focus on understanding and potentially negotiating the higher-risk clauses."]
    else
      ["âœ… This contract appears to have manageable risk levels."]
  let hasFac (needle : String) : Bool :=
    riskFactors.any (fun f => inStr (str needle) (lowerL (str f)))
  let trig :=
    (if hasFac "unlimited liability" then
      ["Consider negotiating a liability cap to limit your financial exposure."] else []) ++
    (if hasFac "immediate termination" then
      ["Request a cure period or notice requirement for termination clauses."] else []) ++
    (if hasFac "one-sided" then
      ["Push for more balanced terms that don't heavily favor the other party."] else []) ++
    (if hasFac "ambiguous" then
      ["Request clarification on vague or ambiguous language."] else [])
  let catRecs := bd.flatMap (fun p =>
    if p.2 ≠ [] ∧ 8 ≤ maxI p.2 then
      if p.1 = "payment" then
        ["Review payment terms carefully - consider negotiating penalties and fees."]
      else if p.1 = "liability" then
        ["The liability clause is high-risk - consider insurance or indemnification."]
      else if p.1 = "termination" then
        ["Termination terms are unfavorable - negotiate for more balanced conditions."]
      else []
    else [])
  let recs := tier ++ trig ++ catRecs
  let recs :=
    if recs.length = 1 then
      recs ++ ["Ensure you understand all terms before signing.",
               "Keep copies of all documents and correspondence."]
    else recs
  recs.take 10

/-- The percentage/count distribution of clause scores. -/
structure RiskDistribution where
  low : ℚ
  medium : ℚ
  high : ℚ
  counts : Option (Nat × Nat × Nat)
deriving DecidableEq, Repr

/-- RiskAnalyzer._calculate_risk_distribution (the empty branch returns the
counts-free dict of the source). -/
def calculateRiskDistribution (risks : List Int) : RiskDistribution :=
  if risks = [] then ⟨0, 0, 0, none⟩
  else
    let lc := risks.countP (fun s => decide (s < 4))
    let mc := risks.countP (fun s => decide (4 ≤ s ∧ s < 7))
    let hc := risks.countP (fun s => decide (7 ≤ s))
    let total := risks.length
    ⟨roundQ1 ((lc : ℚ) / (total : ℚ) * 100),
     roundQ1 ((mc : ℚ) / (total : ℚ) * 100),
     roundQ1 ((hc : ℚ) / (total : ℚ) * 100),
     some (lc, mc, hc)⟩

/-- First-seen-order deduplication.  The source computes list(set(...)),
whose order CPython leaves unspecified; nothing downstream reads the order. -/
def dedupFirst : List String → List String
  | [] => []
  | x :: xs => x :: dedupFirst (xs.filter (fun y => y ≠ x))
termination_by l => l.length
decreasing_by
  simp only [List.length_cons]
  exact Nat.lt_succ_of_le (List.length_filter_le _ _)

/-- The full document risk assessment record of RiskAnalyzer.assess_risk. -/
structure RiskAssessment where
  overall_risk : String
  risk_score : ℚ
  max_risk_score : Int
  high_risk_clauses : Nat
  total_clauses : Nat
  risk_summary : String
  top_risk_areas : List TopRisk
  risk_factors : List String
  clause_breakdown : List (String × List Int)
  recommendations : List String
  risk_distribution : RiskDistribution
deriving DecidableEq, Repr

/-- RiskAnalyzer._get_empty_risk_assessment. -/
def emptyRiskAssessment : RiskAssessment :=
  { overall_risk := "unknown",
    risk_score := 0,
    max_risk_score := 0,
    high_risk_clauses := 0,
    total_clauses := 0,
    risk_summary := "No clauses available for risk analysis",
    top_risk_areas := [],
    risk_factors := [],
    clause_breakdown := [],
    recommendations := ["Document analysis required"],
    risk_distribution := ⟨0, 0, 0, none⟩ }

/-- RiskAnalyzer.assess_risk: the empty-input branch returns the fixed empty
assessment; otherwise score every clause and aggregate. -/
def assessRisk (clauses : List ClauseRec) : RiskAssessment :=
  if clauses = [] then emptyRiskAssessment
  else
    let risks := clauses.map (fun c => (analyzeClauseRisk c).score)
    let factors := clauses.flatMap (fun c => (analyzeClauseRisk c).factors)
    let bd := buildBreakdown clauses
    let avg : ℚ := ((risks.foldl (· + ·) 0 : Int) : ℚ) / (risks.length : ℚ)
    let mx := maxI risks
    let hc := risks.countP (fun s => decide (7 ≤ s))
    let overall := determineOverallRisk avg mx hc
    { overall_risk := overall,
      risk_score := roundQ1 avg,
      max_risk_score := mx,
      high_risk_clauses := hc,
      total_clauses := clauses.length,
      risk_summary := generateRiskSummary avg hc clauses.length bd,
      top_risk_areas := identifyTopRisks bd clauses,
      risk_factors := dedupFirst factors,
      clause_breakdown := bd,
      recommendations := generateRecommendations overall factors bd,
      risk_distribution := calculateRiskDistribution risks }

/-- The risk-level thresholds stated by the specification for clause records:
at most 3 low, 4 to 6 medium, at least 7 high. -/
def specRiskLevel (score : Int) : String :=
  if score ≤ 3 then "low" else if score ≤ 6 then "medium" else "high"

/-- The thresholds the AI-layer scorer actually applies: at most 3 low,
4 to 7 medium, at least 8 high. -/
def aiScoreToLevel (score : Int) : String :=
  if score ≤ 3 then "low" else if score ≤ 7 then "medium" else "high"

theorem inStr_nil_needle (s : Str) : inStr [] s = true := by
  induction s with
  | nil => rfl
  | cons c s ih => simp [inStr, begins, ih]

theorem begins_append_mono {n t : Str} (p : Str) (h : begins n t = true) :
    begins n (t ++ p) = true := by
  induction n generalizing t with
  | nil => rfl
  | cons c n ih =>
    cases t with
    | nil => simp [begins] at h
    | cons d t' =>
      simp only [List.cons_append, begins, Bool.and_eq_true] at h ⊢
      exact ⟨h.1, ih h.2⟩

theorem inStr_append_left {n t : Str} (p : Str) (h : inStr n t = true) :
    inStr n (t ++ p) = true := by
  induction t with
  | nil =>
    cases n with
    | nil => exact inStr_nil_needle p
    | cons c m => simp [inStr, begins] at h
  | cons d t' ih =>
    simp only [List.cons_append, inStr, Bool.or_eq_true] at h ⊢
    rcases h with h | h
    · exact Or.inl (begins_append_mono p h)
    · exact Or.inr (ih h)

theorem inStr_append_right {n : Str} (t p : Str) (h : inStr n p = true) :
    inStr n (t ++ p) = true := by
  induction t with
  | nil => exact h
  | cons d t' ih =>
    simp only [List.cons_append, inStr, Bool.or_eq_true]
    exact Or.inr ih

theorem begins_append_cases {n t p : Str} (h : begins n (t ++ p) = true) :
    (n.length ≤ t.length ∧ begins n t = true) ∨
    (t.length < n.length ∧ begins (n.drop t.length) p = true) := by
  induction n generalizing t with
  | nil => exact Or.inl ⟨Nat.zero_le _, rfl⟩
  | cons c n ih =>
    cases t with
    | nil => exact Or.inr ⟨Nat.succ_pos _, h⟩
    | cons d t' =>
      simp only [List.cons_append, begins, Bool.and_eq_true] at h
      rcases ih (t := t') h.2 with ⟨h1, h2⟩ | ⟨h1, h2⟩
      · exact Or.inl ⟨Nat.succ_le_succ h1, by simp [begins, h.1, h2]⟩
      · exact Or.inr ⟨Nat.succ_lt_succ h1, h2⟩

theorem inStr_append_cases {n t p : Str} (h : inStr n (t ++ p) = true) :
    inStr n t = true ∨ inStr n p = true ∨
    ∃ k, 0 < k ∧ k < n.length ∧ begins (n.drop k) p = true := by
  induction t with
  | nil => exact Or.inr (Or.inl h)
  | cons d t' ih =>
    simp only [List.cons_append, inStr, Bool.or_eq_true] at h
    rcases h with h | h
    · rcases begins_append_cases (t := d :: t') (by simpa using h) with ⟨_, h2⟩ | ⟨h1, h2⟩
      · exact Or.inl (by simp [inStr, h2])
      · exact Or.inr (Or.inr ⟨(d :: t').length, Nat.succ_pos _, h1, h2⟩)
    · rcases ih h with h | h | ⟨k, hk⟩
      · exact Or.inl (by simp [inStr, h])
      · exact Or.inr (Or.inl h)
      · exact Or.inr (Or.inr ⟨k, hk⟩)

/-- Decidable guard: the needle n occurs nowhere inside p, and no nonempty
proper suffix of n is a prefix of p, so appending p to any text cannot
create a new occurrence of n. -/
def noCross (n p : Str) : Bool :=
  !(inStr n p) && (List.range n.length).all (fun k => (k == 0) || !(begins (n.drop k) p))

theorem inStr_of_append_of_noCross {n t p : Str} (hnc : noCross n p = true)
    (h : inStr n (t ++ p) = true) : inStr n t = true := by
  simp only [noCross, Bool.and_eq_true, Bool.not_eq_true', List.all_eq_true] at hnc
  rcases inStr_append_cases h with h | h | ⟨k, hk0, hkl, hkb⟩
  · exact h
  · rw [hnc.1] at h; exact absurd h (by simp)
  · have hk := hnc.2 k (List.mem_range.mpr hkl)
    rcases Bool.or_eq_true _ _ |>.mp hk with hk | hk
    · have hk' : k = 0 := by simpa using hk
      exact absurd hk' (Nat.pos_iff_ne_zero.mp hk0)
    · rw [Bool.not_eq_true'] at hk
      rw [hk] at hkb; exact absurd hkb (by simp)

theorem lowerL_append (t p : Str) : lowerL (t ++ p) = lowerL t ++ lowerL p :=
  List.map_append _ _ _

theorem clamp_mono {a b : Int} (h : a ≤ b) : max 1 (min 10 a) ≤ max 1 (min 10 b) :=
  max_le_max (le_refl 1) (min_le_min (le_refl 10) h)

theorem clamp_lb (a : Int) : (1 : Int) ≤ max 1 (min 10 a) := le_max_left _ _

theorem clamp_ub (a : Int) : max 1 (min 10 a) ≤ 10 :=
  max_le (by norm_num) (min_le_left _ _)

/-- C1.  For every clause text and category, both clause risk scorers
(AIAnalyzer._assess_clause_risk and RiskAnalyzer._analyze_clause_risk) return
a risk score in [1,10]: the base-plus-adjustments total is clamped to that
range before being returned. -/
theorem C1_clause_scores_clamped (t : Str) (ty : String) (c : ClauseRec) :
    (1 ≤ (assessClauseRisk t ty).score ∧ (assessClauseRisk t ty).score ≤ 10) ∧
    (1 ≤ (analyzeClauseRisk c).score ∧ (analyzeClauseRisk c).score ≤ 10) := by
  refine ⟨⟨?_, ?_⟩, ⟨?_, ?_⟩⟩
  · simp only [assessClauseRisk]; exact clamp_lb _
  · simp only [assessClauseRisk]; exact clamp_ub _
  · simp only [analyzeClauseRisk]; exact clamp_lb _
  · simp only [analyzeClauseRisk]; exact clamp_ub _

/-- C2, counterexample.  The claim says risk_level regenerates from
risk_score via the thresholds (at most 3 low, 4 to 6 medium, at least 7
high) for every clause record produced by analysis.  The clause record the
AI layer produces for the text "confidential penalty" stores score 7 with
level "medium", while the claimed thresholds map 7 to "high". -/
theorem C2_counterexample :
    let r := analyzeClause (str "confidential penalty") 0
    r.risk_score = 7 ∧ r.risk_level = "medium" ∧
    specRiskLevel r.risk_score = "high" ∧
    r.risk_level ≠ specRiskLevel r.risk_score := by
  decide

/-- C2, amended.  In each scorer the stored level is a pure deterministic
function of the stored (clamped) score, never set independently; the primary
scorer (RiskAnalyzer) uses the thresholds at most 3 low / 4 to 6 medium /
at least 7 high, while the AI-layer scorer uses at most 3 low / 4 to 7
medium / at least 8 high. -/
theorem C2_level_function_of_score :
    (∀ c : ClauseRec,
      (analyzeClauseRisk c).level = scoreToLevel (analyzeClauseRisk c).score) ∧
    (∀ (t : Str) (ty : String),
      (assessClauseRisk t ty).level = aiScoreToLevel (assessClauseRisk t ty).score) := by
  constructor
  · intro c; rfl
  · intro t ty; rfl

/-- C6.  Aggregating an empty clause list fails closed: assess_risk([])
returns the fixed empty assessment with overall_risk "unknown", zero totals,
empty top risk areas and a non-empty default recommendation list (and, being
a total function, never raises). -/
theorem C6_empty_aggregation_fails_closed :
    (assessRisk []).overall_risk = "unknown" ∧
    (assessRisk []).total_clauses = 0 ∧
    (assessRisk []).risk_score = 0 ∧
    (assessRisk []).top_risk_areas = [] ∧
    (assessRisk []).recommendations = ["Document analysis required"] ∧
    (assessRisk []).recommendations ≠ [] := by
  decide

/-- C10.  analyze_document is deterministic once the wall-clock timestamp is
factored out: two runs on the same text and filename with different
timestamps return identical clause lists, document types and per-clause
risk scores. -/
theorem C10_analyze_two_run_deterministic (text : Str) (fn ts1 ts2 : String) :
    (analyzeDocument text fn ts1).clauses = (analyzeDocument text fn ts2).clauses ∧
    (analyzeDocument text fn ts1).document_type = (analyzeDocument text fn ts2).document_type ∧
    ((analyzeDocument text fn ts1).clauses.map (fun c => c.risk_score)) =
      ((analyzeDocument text fn ts2).clauses.map (fun c => c.risk_score)) :=
  ⟨rfl, rfl, rfl⟩

/-- C3, counterexample.  The claim says segment returns a non-empty sequence
for every non-empty input; but _split_into_clauses keeps only sections longer
than 100 characters, so a non-empty 10-character text yields no clauses. -/
theorem C3_counterexample :
    str "short text" ≠ [] ∧ splitIntoClauses (str "short text") = [] := by
  decide

/-- C3, amended.  segment always returns at most 20 clauses, each longer
than 100 characters (so at least 100), and the blank-line fallback path
returns at most 10 clauses, each longer than 100 characters; both are total
functions, but the result may be empty when no fragment exceeds 100
characters. -/
theorem C3_segmentation_bounds (t : Str) :
    (splitIntoClauses t).length ≤ 20 ∧
    (∀ s ∈ splitIntoClauses t, 100 < s.length) ∧
    (splitFallback t).length ≤ 10 ∧
    (∀ s ∈ splitFallback t, 100 < s.length) := by
  refine ⟨?_, ?_, ?_, ?_⟩
  · simp only [splitIntoClauses]
    exact List.length_take_le _ _
  · intro s hs
    simp only [splitIntoClauses] at hs
    have h1 := List.mem_of_mem_take hs
    have h2 := (List.mem_filter.mp h1).2
    simpa using h2
  · simp only [splitFallback]
    exact List.length_take_le _ _
  · intro s hs
    simp only [splitFallback] at hs
    have h1 := List.mem_of_mem_take hs
    have h2 := (List.mem_filter.mp h1).2
    simpa using h2

/-- C3, witness for the amended bounds at a concrete 120-character text,
which segments to itself as the single clause. -/
theorem C3_segmentation_bounds_witness :
    (splitIntoClauses (List.replicate 120 'x')).length ≤ 20 ∧
    100 < (List.replicate 120 'x' : Str).length :=
  ⟨(C3_segmentation_bounds _).1,
   (C3_segmentation_bounds (List.replicate 120 'x')).2.1 _ (by decide)⟩

/-- The clause text of the C5 counterexample: 482 filler characters followed
by a high-risk phrase, 501 characters in all, so the stored display content
cuts through the phrase. -/
def c5text : Str := List.replicate 482 'a' ++ str "unlimited liability"

/-- C5, counterexample.  The document-level risk scorer
(RiskAnalyzer._analyze_clause_risk) reads the stored content field, which
_analyze_clause truncates to 500 characters plus an ellipsis, so for this
501-character clause the document-level score (7, base liability only) is
not the score of the full untruncated text (10). -/
theorem C5_counterexample :
    500 < c5text.length ∧
    (analyzeClauseRisk (analyzeClause c5text 0)).score = 7 ∧
    (analyzeClauseRisk { analyzeClause c5text 0 with content := c5text }).score = 10 ∧
    (analyzeClauseRisk (analyzeClause c5text 0)).score ≠
      (analyzeClauseRisk { analyzeClause c5text 0 with content := c5text }).score := by
  decide

/-- C5, amended.  Document-level risk assessment scores the stored display
content; that equals full-text scoring exactly on clauses of at most 500
characters, where no truncation happens. -/
theorem C5_score_agrees_for_short (t : Str) (i : Nat) (h : t.length ≤ 500) :
    (analyzeClauseRisk (analyzeClause t i)).score =
      (analyzeClauseRisk { analyzeClause t i with content := t }).score := by
  have hc : (analyzeClause t i).content = t := by
    simp only [analyzeClause]
    rw [if_neg (by omega)]
  have he : { analyzeClause t i with content := t } = analyzeClause t i := by
    calc ({ analyzeClause t i with content := t } : ClauseRec)
        = { analyzeClause t i with content := (analyzeClause t i).content } := by rw [hc]
      _ = analyzeClause t i := rfl
  rw [he]

/-- C5, witness for the amended statement at a short clause. -/
theorem C5_score_agrees_for_short_witness :
    (str "hello payment").length ≤ 500 ∧
    (analyzeClauseRisk (analyzeClause (str "hello payment") 0)).score =
      (analyzeClauseRisk { analyzeClause (str "hello payment") 0 with
        content := str "hello payment" }).score :=
  ⟨by decide, C5_score_agrees_for_short _ 0 (by decide)⟩

theorem fct_mem {l : List (String × List Rx)} {tl : Str} {s : String}
    (h : findClauseType l tl = some s) : s ∈ l.map Prod.fst := by
  induction l with
  | nil => simp [findClauseType] at h
  | cons p rest ih =>
    rw [findClauseType] at h
    split at h
    · simp at h; simp [h]
    · simpa using Or.inr (ih h)

theorem fct_none {l : List (String × List Rx)} {tl : Str}
    (h : l.all (fun p => !p.2.any (fun r => r.found tl)) = true) :
    findClauseType l tl = none := by
  induction l with
  | nil => rfl
  | cons p rest ih =>
    simp only [List.all_cons, Bool.and_eq_true, Bool.not_eq_true'] at h
    rw [findClauseType]
    rw [if_neg (by simp [h.1])]
    exact ih (by simpa using h.2)

/-- C4.  The classifier always returns exactly one category of the closed
set; whenever any termination pattern matches, the first-declared-wins loop
returns "termination" (so in particular a text matching both a termination
pattern and a liability pattern classifies as termination); and when no
category pattern matches, the fallback tries obligation modal words, then
permission words, then "general". -/
theorem C4_classifier_order (t : Str) :
    identifyClauseType t ∈ ["termination", "liability", "payment", "confidentiality",
      "intellectual_property", "dispute_resolution", "obligation", "right", "general"] ∧
    (((clausePatterns.lookup "termination").getD []).any
        (fun r => r.found (lowerL t)) = true →
      identifyClauseType t = "termination") ∧
    (clausePatterns.all (fun p => !p.2.any (fun r => r.found (lowerL t))) = true →
      identifyClauseType t =
        (if [str "shall", str "will", str "must", str "required"].any
            (fun w => inStr w (lowerL t)) then "obligation"
         else if [str "may", str "can", str "permitted", str "allowed"].any
            (fun w => inStr w (lowerL t)) then "right"
         else "general")) := by
  refine ⟨?_, ?_, ?_⟩
  · cases h : findClauseType clausePatterns (lowerL t) with
    | none =>
      simp only [identifyClauseType, h]
      split
      · simp
      · split <;> simp
    | some s =>
      have hm := fct_mem h
      simp only [identifyClauseType, h]
      simp only [clausePatterns, List.map] at hm
      simp only [List.mem_cons, List.not_mem_nil, or_false] at hm
      rcases hm with rfl | rfl | rfl | rfl | rfl | rfl <;> simp
  · intro h
    simp only [clausePatterns, List.lookup] at h
    simp only [identifyClauseType, clausePatterns]
    rw [findClauseType, if_pos (by simpa using h)]
  · intro h
    simp only [identifyClauseType, fct_none h]

/-- C4, witness: a text matching both a termination pattern and a liability
pattern classifies as termination. -/
theorem C4_classifier_order_witness :
    ((clausePatterns.lookup "termination").getD []).any
      (fun r => r.found (lowerL (str "termination of all liability"))) = true ∧
    identifyClauseType (str "termination of all liability") = "termination" :=
  ⟨by decide, (C4_classifier_order _).2.1 (by decide)⟩

/-- The per-category base template of the simplifier, as looked up by
_simplify_clause. -/
def baseTemplate (ty : String) : String :=
  (simplificationTemplates.lookup ty).getD "This is a standard contract provision."

/-- The days-of-notice detail append, conditioned only on its own triggers
("notice" present and the days-notice pattern found). -/
def noticeDetail (tl : Str) : String :=
  if inStr (str "notice") tl then
    match findDaysNotice tl with
    | some d => " You need to give " ++ String.mk d ++ " days notice."
    | none => ""
  else ""

/-- The termination-without-cause detail append, conditioned only on its own
triggers ("cause" and "without" present). -/
def causeDetail (tl : Str) : String :=
  if inStr (str "cause") tl && inStr (str "without") tl then
    " Either party can terminate without giving a specific reason."
  else ""

/-- The dollar-amount detail append, conditioned only on its own trigger
(a dollar amount found in the raw text). -/
def amountDetail (text : Str) : String :=
  match findDollar text with
  | some m => " The amount involved is " ++ String.mk m ++ "."
  | none => ""

/-- The late-fee detail append, conditioned only on its own triggers
("late" and "fee" present). -/
def lateDetail (tl : Str) : String :=
  if inStr (str "late") tl && inStr (str "fee") tl then
    " There are penalties for late payment."
  else ""

/-- C9, counterexample.  The claim says the four simplifier appends are
independent, and in particular a clause containing a termination trigger
and a dollar amount with the word payment receives both the termination
detail and the amount detail.  On "termination and payment of $5,000" the
payment trigger and the dollar amount are present, yet the source's elif
skips the whole payment branch because "termination" occurs, and no amount
sentence is appended. -/
theorem C9_counterexample :
    (inStr (str "payment") (lowerL (str "termination and payment of $5,000")) = true) ∧
    findDollar (str "termination and payment of $5,000") = some (str "$5,000") ∧
    (inStr (str "termination") (lowerL (str "termination and payment of $5,000")) = true) ∧
    simplifyClause (str "termination and payment of $5,000") "payment" =
      "This covers how much you pay and when payments are due." ∧
    inStr (str "The amount involved")
      (str (simplifyClause (str "termination and payment of $5,000") "payment")) = false := by
  decide

/-- C9, amended.  The termination pair and the payment pair of detail
appends are mutually exclusive branches (termination wins); within the
selected branch the two appends are independent, each conditioned only on
its own textual trigger and applied in the fixed listed order. -/
theorem C9_simplifier_appends (t : Str) (ty : String) :
    (inStr (str "termination") (lowerL t) = true →
      simplifyClause t ty =
        baseTemplate ty ++ noticeDetail (lowerL t) ++ causeDetail (lowerL t)) ∧
    (inStr (str "termination") (lowerL t) = false →
      inStr (str "payment") (lowerL t) = true →
      simplifyClause t ty =
        baseTemplate ty ++ amountDetail t ++ lateDetail (lowerL t)) ∧
    (inStr (str "termination") (lowerL t) = false →
      inStr (str "payment") (lowerL t) = false →
      simplifyClause t ty = baseTemplate ty) := by
  refine ⟨?_, ?_, ?_⟩
  · intro h
    simp only [simplifyClause, baseTemplate, noticeDetail, causeDetail, h, if_true]
    cases hn : inStr (str "notice") (lowerL t) with
    | true =>
      cases hd : findDaysNotice (lowerL t) with
      | some d =>
        cases hc : (inStr (str "cause") (lowerL t) && inStr (str "without") (lowerL t)) <;>
          simp [hn, hd, hc, String.append_empty, String.append_assoc]
      | none =>
        cases hc : (inStr (str "cause") (lowerL t) && inStr (str "without") (lowerL t)) <;>
          simp [hn, hd, hc, String.append_empty, String.append_assoc]
    | false =>
      cases hc : (inStr (str "cause") (lowerL t) && inStr (str "without") (lowerL t)) <;>
        simp [hn, hc, String.append_empty, String.append_assoc]
  · intro h hp
    simp only [simplifyClause, baseTemplate, amountDetail, lateDetail, h, hp]
    cases hd : findDollar t with
    | some m =>
      cases hl : (inStr (str "late") (lowerL t) && inStr (str "fee") (lowerL t)) <;>
        simp [hd, hl, String.append_empty, String.append_assoc]
    | none =>
      cases hl : (inStr (str "late") (lowerL t) && inStr (str "fee") (lowerL t)) <;>
        simp [hd, hl, String.append_empty, String.append_assoc]
  · intro h hp
    simp [simplifyClause, baseTemplate, h, hp]

/-- C9, witness: one clause exercising the termination branch with both of
its appends, and one exercising the payment branch with both of its. -/
theorem C9_simplifier_appends_witness :
    simplifyClause (str "Termination without cause requires 30 days notice") "termination" =
      baseTemplate "termination" ++
        noticeDetail (lowerL (str "Termination without cause requires 30 days notice")) ++
        causeDetail (lowerL (str "Termination without cause requires 30 days notice")) ∧
    simplifyClause (str "the payment is $5,000 with late fee") "payment" =
      baseTemplate "payment" ++ amountDetail (str "the payment is $5,000 with late fee") ++
        lateDetail (lowerL (str "the payment is $5,000 with late fee")) :=
  ⟨(C9_simplifier_appends _ _).1 (by decide),
   (C9_simplifier_appends _ _).2.1 (by decide) (by decide)⟩


theorem ite_pair_fst {c : Prop} [Decidable c] (x y : Int × List String) :
    (ite c x y).1 = ite c x.1 y.1 := by split <;> rfl

theorem ite_w_mono {c c' : Prop} [Decidable c] [Decidable c'] {w : Int}
    (hw : 0 ≤ w) (h : c → c') : (ite c w (0 : Int)) ≤ ite c' w 0 := by
  split_ifs with h1 h2
  · exact le_refl w
  · exact absurd (h h1) h2
  · exact hw
  · exact le_refl 0

theorem filterLen_mono {L : List Str} {tl tp : Str}
    (h : ∀ k, inStr k tl = true → inStr k tp = true) :
    (L.filter (fun k => inStr k tl)).length ≤ (L.filter (fun k => inStr k tp)).length := by
  rw [← List.countP_eq_length_filter, ← List.countP_eq_length_filter]
  exact List.countP_mono_left (fun k _ hk => h k hk)

theorem filterLen_congr {L : List Str} {tl tp : Str}
    (h : ∀ k ∈ L, inStr k tl = true ↔ inStr k tp = true) :
    (L.filter (fun k => inStr k tl)).length = (L.filter (fun k => inStr k tp)).length := by
  rw [← List.countP_eq_length_filter, ← List.countP_eq_length_filter]
  exact List.countP_congr h

theorem checkAdd_mono {tl tl' : Str} {s s' : Int} (hs : s ≤ s')
    (hmono : ∀ k : Str, inStr k tl = true → inStr k tl' = true) :
    (checkAdditionalRiskFactors tl s).1 ≤ (checkAdditionalRiskFactors tl' s').1 := by
  simp only [checkAdditionalRiskFactors, ite_pair_fst]
  refine add_le_add (add_le_add (add_le_add (add_le_add hs ?_) ?_) ?_) ?_
  · exact ite_w_mono (by decide)
      (fun h => le_trans h (List.countP_mono_left (fun k _ hk => hmono k hk)))
  · exact ite_w_mono (by decide)
      (fun h => by
        simp only [List.any_eq_true] at h ⊢
        obtain ⟨x, hx, hxx⟩ := h
        exact ⟨x, hx, hmono x hxx⟩)
  · exact ite_w_mono (by decide)
      (fun h => le_trans h (List.countP_mono_left (fun k _ hk => hmono _ hk)))
  · exact ite_w_mono (by decide)
      (fun h => by
        simp only [List.any_eq_true] at h ⊢
        obtain ⟨x, hx, hxx⟩ := h
        exact ⟨x, hx, hmono x hxx⟩)

theorem ra_mono (c : ClauseRec) (p : Str)
    (hlow : ∀ l ∈ riskLowFlat, inStr l (lowerL (c.content ++ p)) = true →
      inStr l (lowerL c.content) = true) :
    (analyzeClauseRisk c).score ≤
      (analyzeClauseRisk { c with content := c.content ++ p }).score := by
  have hmono : ∀ k : Str, inStr k (lowerL c.content) = true →
      inStr k (lowerL (c.content ++ p)) = true := by
    intro k hk; rw [lowerL_append]; exact inStr_append_left _ hk
  simp only [analyzeClauseRisk]
  apply clamp_mono
  apply checkAdd_mono _ hmono
  have hH := filterLen_mono (L := riskHighFlat) hmono
  have hM := filterLen_mono (L := riskMediumFlat) hmono
  have hL : (riskLowFlat.filter (fun k => inStr k (lowerL (c.content ++ p)))).length
      = (riskLowFlat.filter (fun k => inStr k (lowerL c.content))).length :=
    filterLen_congr (fun k hk => ⟨hlow k hk, hmono k⟩)
  have hw1 : riskWeight "high_risk_term" = 3 := by decide
  have hw2 : riskWeight "medium_risk_term" = 2 := by decide
  have hw3 : riskWeight "low_risk_term" = -1 := by decide
  rw [hw1, hw2, hw3]
  omega

theorem ai_mono (t p : Str) (ty : String) (hp : p ∈ aiHighRiskKeywords) :
    (assessClauseRisk t ty).score ≤ (assessClauseRisk (t ++ p) ty).score := by
  have hmono : ∀ k : Str, inStr k (lowerL t) = true → inStr k (lowerL (t ++ p)) = true := by
    intro k hk; rw [lowerL_append]; exact inStr_append_left _ hk
  have hH := filterLen_mono (L := aiHighRiskKeywords) hmono
  have hM := filterLen_mono (L := aiMediumRiskKeywords) hmono
  have hLim : inStr (str "limited") (lowerL (t ++ p)) = true →
      inStr (str "limited") (lowerL t) = true ∨
      inStr (str "unlimited") (lowerL (t ++ p)) = true := by
    intro hl
    simp only [aiHighRiskKeywords, List.mem_cons, List.not_mem_nil, or_false] at hp
    rcases hp with rfl | rfl | rfl | rfl | rfl | rfl | rfl | rfl | rfl
    · right
      rw [lowerL_append]
      exact inStr_append_right _ _ (by decide)
    all_goals
      left
      rw [lowerL_append] at hl
      exact inStr_of_append_of_noCross (by decide) hl
  simp only [assessClauseRisk, ite_pair_fst]
  by_cases h1 : ty = "termination"
  · simp only [if_pos h1]
    cases hc : (inStr (str "immediate") (lowerL t) || inStr (str "without notice") (lowerL t)) with
    | true =>
      have hc2 : (inStr (str "immediate") (lowerL (t ++ p)) ||
          inStr (str "without notice") (lowerL (t ++ p))) = true := by
        rcases (Bool.or_eq_true _ _).mp hc with h | h
        · exact (Bool.or_eq_true _ _).mpr (Or.inl (hmono _ h))
        · exact (Bool.or_eq_true _ _).mpr (Or.inr (hmono _ h))
      apply clamp_mono
      simp only [hc, hc2]
      simp only [if_true]
      omega
    | false =>
      cases hc2 : (inStr (str "immediate") (lowerL (t ++ p)) ||
          inStr (str "without notice") (lowerL (t ++ p))) <;>
        · apply clamp_mono
          simp [hc, hc2]
          omega
  · simp only [if_neg h1]
    by_cases h2 : ty = "liability"
    · simp only [if_pos h2]
      cases hu : inStr (str "unlimited") (lowerL t) with
      | true =>
        have hu2 := hmono _ hu
        apply clamp_mono
        simp only [hu, hu2, if_true]
        omega
      | false =>
        cases hu2 : inStr (str "unlimited") (lowerL (t ++ p)) with
        | true =>
          cases hl : inStr (str "limited") (lowerL t) <;>
            · apply clamp_mono
              simp [hu, hu2, hl]
              omega
        | false =>
          cases hl2 : inStr (str "limited") (lowerL (t ++ p)) with
          | true =>
            have hl : inStr (str "limited") (lowerL t) = true := by
              rcases hLim hl2 with h | h
              · exact h
              · rw [h] at hu2; exact absurd hu2 (by simp)
            apply clamp_mono
            simp [hu, hu2, hl, hl2]
            omega
          | false =>
            have hl : inStr (str "limited") (lowerL t) = false := by
              cases h : inStr (str "limited") (lowerL t) with
              | true => rw [hmono _ h] at hl2; exact absurd hl2 (by simp)
              | false => rfl
            apply clamp_mono
            simp [hu, hu2, hl, hl2]
            omega
    · simp only [if_neg h2]
      by_cases h3 : ty = "payment"
      · simp only [if_pos h3]
        cases hc : (inStr (str "penalty") (lowerL t) ||
            inStr (str "liquidated damages") (lowerL t)) with
        | true =>
          have hc2 : (inStr (str "penalty") (lowerL (t ++ p)) ||
              inStr (str "liquidated damages") (lowerL (t ++ p))) = true := by
            rcases (Bool.or_eq_true _ _).mp hc with h | h
            · exact (Bool.or_eq_true _ _).mpr (Or.inl (hmono _ h))
            · exact (Bool.or_eq_true _ _).mpr (Or.inr (hmono _ h))
          apply clamp_mono
          simp only [hc, hc2]
          simp only [if_true]
          omega
        | false =>
          cases hc2 : (inStr (str "penalty") (lowerL (t ++ p)) ||
              inStr (str "liquidated damages") (lowerL (t ++ p))) <;>
            · apply clamp_mono
              simp [hc, hc2]
              omega
      · simp only [if_neg h3]
        apply clamp_mono; omega

/-- The clause of the C7 counterexample: a general clause already containing
the high-risk phrase "no refund" and ending one character short of the
protective term "mutual liability limitation". -/
def c7clause : ClauseRec :=
  { id := "clause_0", title := "General",
    content := str "no refund mutual liability limitatio", simplified := "",
    risk_level := "medium", risk_score := 5, risk_factors := [],
    clause_type := "general" }

/-- C7, counterexample.  The claim says appending an exact copy of a
high-risk phrase never lowers the clause risk score.  Appending "no refund"
to this clause completes the protective term "mutual liability limitation"
across the append boundary; the high phrase was already present, so the
primary scorer drops from 7 to 6. -/
theorem C7_counterexample :
    str "no refund" ∈ riskHighFlat ∧
    (analyzeClauseRisk { c7clause with content := c7clause.content ++ str "no refund" }).score <
      (analyzeClauseRisk c7clause).score := by
  decide

/-- C7, amended.  Appending a high-risk phrase never lowers the AI-layer
score (unconditionally); it never lowers the primary (RiskAnalyzer) score
provided the appended copy does not complete a new low-risk (protective)
term occurrence, the one mechanism by which the counterexample lowers it. -/
theorem C7_monotonicity_amended :
    (∀ (t p : Str) (ty : String), p ∈ aiHighRiskKeywords →
      (assessClauseRisk t ty).score ≤ (assessClauseRisk (t ++ p) ty).score) ∧
    (∀ (c : ClauseRec) (p : Str), p ∈ riskHighFlat →
      (∀ l ∈ riskLowFlat, inStr l (lowerL (c.content ++ p)) = true →
        inStr l (lowerL c.content) = true) →
      (analyzeClauseRisk c).score ≤
        (analyzeClauseRisk { c with content := c.content ++ p }).score) :=
  ⟨ai_mono, fun c p _ hlow => ra_mono c p hlow⟩

/-- C7, witness: both amended conjuncts applied at concrete clauses and
phrases. -/
theorem C7_monotonicity_amended_witness :
    (assessClauseRisk (str "hello world") "general").score ≤
      (assessClauseRisk (str "hello world" ++ str "penalty") "general").score ∧
    (analyzeClauseRisk c7clause).score ≤
      (analyzeClauseRisk { c7clause with
        content := c7clause.content ++ str "penalty clause" }).score :=
  ⟨C7_monotonicity_amended.1 _ _ _ (by decide),
   C7_monotonicity_amended.2 _ _ (by decide) (by decide)⟩


def mandatoryMsg (ov : String) : String :=
  if ov = "high" then
    "ðŸš¨ CRITICAL: This contract has significant risks. Strongly consider legal review before signing."
  else if ov = "medium" then
    "âš ï¸ CAUTION: This contract has moderate risks. Review carefully and consider legal consultation."
  else "âœ… This contract appears to have manageable risk levels."

def fallbackRec1 : String := "Ensure you understand all terms before signing."

def fallbackRec2 : String := "Keep copies of all documents and correspondence."

def isTierMsg (r : String) : Bool :=
  (r == mandatoryMsg "high") || (r == mandatoryMsg "medium") || (r == mandatoryMsg "low")

theorem head?_take_pos {α : Type} (l : List α) (n : Nat) (hn : 0 < n) :
    (l.take n).head? = l.head? := by
  cases l <;> cases n <;> simp_all

theorem recsCore (T G C : List String) (m : String) (R : List String)
    (hR : R = (if (T ++ G ++ C).length = 1 then
        (T ++ G ++ C) ++ [fallbackRec1, fallbackRec2] else (T ++ G ++ C)).take 10)
    (hT : T.head? = some m)
    (hm : isTierMsg m = true)
    (hTc : T.countP isTierMsg = 1)
    (hG : ∀ x ∈ G, isTierMsg x = false)
    (hC : ∀ x ∈ C, isTierMsg x = false)
    (hfT : ∀ x ∈ T, x ≠ fallbackRec1)
    (hfG : ∀ x ∈ G, x ≠ fallbackRec1)
    (hfC : ∀ x ∈ C, x ≠ fallbackRec1) :
    R.head? = some m ∧ R.countP isTierMsg = 1 ∧
    (fallbackRec1 ∈ R ↔ R = [m, fallbackRec1, fallbackRec2]) ∧ R.length ≤ 10 := by
  have hGc : G.countP isTierMsg = 0 := List.countP_eq_zero.mpr (by simpa using hG)
  have hCc : C.countP isTierMsg = 0 := List.countP_eq_zero.mpr (by simpa using hC)
  have hfull : (T ++ G ++ C).countP isTierMsg = 1 := by
    simp [List.countP_append, hTc, hGc, hCc]
  have hfnot : fallbackRec1 ∉ T ++ G ++ C := by
    intro hmem
    rcases List.mem_append.mp hmem with hmem | hmem
    · rcases List.mem_append.mp hmem with hmem | hmem
      · exact hfT _ hmem rfl
      · exact hfG _ hmem rfl
    · exact hfC _ hmem rfl
  by_cases h1 : (T ++ G ++ C).length = 1
  · -- the fallback branch: T = [m], G and C empty
    have hTne : T ≠ [] := by
      intro he; rw [he] at hT; simp at hT
    have hTlen : 1 ≤ T.length := by
      cases T with
      | nil => exact absurd rfl hTne
      | cons a t => simp
    have hlen : T.length + (G.length + C.length) = 1 := by
      simpa [List.length_append] using h1
    have hG0 : G = [] := List.length_eq_zero.mp (by omega)
    have hC0 : C = [] := List.length_eq_zero.mp (by omega)
    have hT1 : T.length = 1 := by omega
    obtain ⟨a, ha⟩ := List.length_eq_one.mp hT1
    have ham : a = m := by
      rw [ha] at hT; simpa using hT
    subst ham
    rw [hR, if_pos h1, ha, hG0, hC0]
    refine ⟨by simp, ?_, ?_, by simp⟩
    · simp [List.countP_cons, hm]
      have h2 : isTierMsg fallbackRec1 = false := by decide
      have h3 : isTierMsg fallbackRec2 = false := by decide
      simp [List.countP, h2, h3]
    · constructor
      · intro _; simp
      · intro _; simp
  · rw [hR, if_neg h1]
    have hhead : (T ++ G ++ C).head? = some m := by
      rw [List.head?_append, List.head?_append, hT]; rfl
    refine ⟨?_, ?_, ?_, List.length_take_le _ _⟩
    · rw [head?_take_pos _ _ (by norm_num)]; exact hhead
    · have hle : ((T ++ G ++ C).take 10).countP isTierMsg ≤ 1 := by
        rw [← hfull]
        exact List.Sublist.countP_le _ (List.take_sublist _ _)
      have hpos : 0 < ((T ++ G ++ C).take 10).countP isTierMsg := by
        rw [List.countP_pos_iff]
        refine ⟨m, ?_, hm⟩
        have : ((T ++ G ++ C).take 10).head? = some m := by
          rw [head?_take_pos _ _ (by norm_num)]; exact hhead
        cases hc : (T ++ G ++ C).take 10 with
        | nil => rw [hc] at this; simp at this
        | cons a l => rw [hc] at this; simp at this; simp [hc, this]
      omega
    · have hnf : fallbackRec1 ∉ (T ++ G ++ C).take 10 := by
        intro hmem
        exact hfnot (List.mem_of_mem_take hmem)
      constructor
      · intro hmem; exact absurd hmem hnf
      · intro he
        exfalso
        apply hnf
        rw [he]
        simp

theorem genRecs_props (ov : String) (factors : List String)
    (bd : List (String × List Int)) :
    (generateRecommendations ov factors bd).head? = some (mandatoryMsg ov) ∧
    (generateRecommendations ov factors bd).countP isTierMsg = 1 ∧
    (fallbackRec1 ∈ generateRecommendations ov factors bd ↔
      generateRecommendations ov factors bd =
        [mandatoryMsg ov, fallbackRec1, fallbackRec2]) ∧
    (generateRecommendations ov factors bd).length ≤ 10 := by
  refine recsCore _ _ _ _ _ rfl ?_ ?_ ?_ ?_ ?_ ?_ ?_ ?_
  · simp only [mandatoryMsg]
    split_ifs <;> simp
  · simp only [mandatoryMsg]
    split_ifs <;> decide
  · split_ifs <;> decide
  · intro x hx
    simp only [List.mem_append] at hx
    rcases hx with ((hx | hx) | hx) | hx <;>
      · revert hx
        split <;> intro hx <;> simp at hx <;> subst hx <;> decide
  · intro x hx
    rw [List.mem_flatMap] at hx
    obtain ⟨p, _, hxp⟩ := hx
    revert hxp
    split_ifs <;> intro hxp <;> simp at hxp <;> subst hxp <;> decide
  · intro x hx
    revert hx
    split_ifs <;> intro hx <;> simp at hx <;>
      first
      | (rcases hx with rfl | rfl <;> decide)
      | (subst hx; decide)
  · intro x hx
    simp only [List.mem_append] at hx
    rcases hx with ((hx | hx) | hx) | hx <;>
      · revert hx
        split <;> intro hx <;> simp at hx <;> subst hx <;> decide
  · intro x hx
    rw [List.mem_flatMap] at hx
    obtain ⟨p, _, hxp⟩ := hx
    revert hxp
    split_ifs <;> intro hxp <;> simp at hxp <;> subst hxp <;> decide

/-- C8.  For every non-empty clause list, the recommendation list begins
with the single mandatory overall-risk-level message of its tier (and that
is the only tier message it contains), the two generic fallback
recommendations are appended exactly when the mandatory message would
otherwise be the only entry, and the list never exceeds 10 entries. -/
theorem C8_recommendations_structure (cs : List ClauseRec) (h : cs ≠ []) :
    (assessRisk cs).recommendations.head? =
      some (mandatoryMsg (assessRisk cs).overall_risk) ∧
    (assessRisk cs).recommendations.countP isTierMsg = 1 ∧
    (fallbackRec1 ∈ (assessRisk cs).recommendations ↔
      (assessRisk cs).recommendations =
        [mandatoryMsg (assessRisk cs).overall_risk, fallbackRec1, fallbackRec2]) ∧
    (assessRisk cs).recommendations.length ≤ 10 := by
  simp only [assessRisk, if_neg h]
  exact genRecs_props _ _ _

def c8clause : ClauseRec :=
  { id := "clause_0", title := "General", content := str "hello world",
    simplified := "", risk_level := "medium", risk_score := 5,
    risk_factors := [], clause_type := "general" }

/-- C8, witness at a one-clause document. -/
theorem C8_recommendations_structure_witness :
    (assessRisk [c8clause]).recommendations.head? =
      some (mandatoryMsg (assessRisk [c8clause]).overall_risk) ∧
    (assessRisk [c8clause]).recommendations.length ≤ 10 :=
  ⟨(C8_recommendations_structure [c8clause] (by simp)).1,
   (C8_recommendations_structure [c8clause] (by simp)).2.2.2⟩

end LegalAI
